import Mathlib

/-
Shallow embedding of src/plot_eeg_ecg.py.

The program reads a CSV into a table, validates the presence of a "Time"
column, coerces it to numeric, drops rows whose time failed coercion,
sorts rows ascending by time, filters out ignored columns, classifies the
remaining columns into EEG / ECG-raw / CM roles, derives two unit-scaled
series per ECG-raw column, and builds a chart scene (trace list, axis
assignment, visibility vectors for the two dropdown menus).

Modelling choices:
  - Cell values are rationals (the Python floats are only ever copied or
    multiplied by 1000.0; the claims are about which multiplications
    happen, not about rounding).
  - A row carries the coerced time value as an Option (none models NaN
    after pd.to_numeric with coerce) plus a valuation of the data columns.
  - pd.DataFrame.sort_values is modelled by List.mergeSort on the time
    key; the claims only depend on the output being a sorted permutation.
  - Python dict insertion (used for ecg_uv and ecg_mv) is modelled by
    dictInsert: overwrite in place when the key is present, append
    otherwise, iteration in insertion order.
  - fig.add_trace appends to fig.data and each loop records
    len(fig.data) - 1, so the four construction loops yield four
    contiguous index blocks, written here with List.range'.
  - A trace with visible = none uses the plotting library default, which
    renders the trace visible; visible = some false is the explicit
    visible=False of the μV loop.
-/

namespace PlotEegEcg

/-- EEG_CHANNELS from the source: the 21 scalp electrode labels. -/
def EEG_CHANNELS : List String :=
  ["Fz", "Cz", "P3", "C3", "F3", "F4", "C4", "P4",
   "Fp1", "Fp2", "T3", "T4", "T5", "T6",
   "O1", "O2", "F7", "F8", "A1", "A2", "Pz"]

/-- ECG_CHANNELS from the source: remapping of raw lead names to display names. -/
def ECG_CHANNELS : List (String × String) :=
  [("X1:LEOG", "ECG_Left"), ("X2:REOG", "ECG_Right")]

/-- IGNORE_EXACT from the source. -/
def IGNORE_EXACT : List String :=
  ["Trigger", "Time_Offset", "ADC_Status", "ADC_Sequence", "Event", "Comments"]

/-- IGNORE_PREFIXES from the source. -/
def IGNORE_PREFIXES : List String := ["X3:"]

/-- The fixed time column name used in main. -/
def tcol : String := "Time"

/-- One parsed CSV row: the time cell after pd.to_numeric coercion
(none models a value that failed coercion, dropped by dropna), and the
numeric value of every data column. -/
structure Row where
  time : Option ℚ
  cells : String → ℚ

/-- A parsed CSV table: named columns in file order, plus the rows. -/
structure Table where
  cols : List String
  rows : List Row

/-- filter_columns from the source: keep the time column first, then every
other column that is not in IGNORE_EXACT and does not start with an
ignored name prefix (str.startswith, written here as a prefix test on the
character sequences of the two strings). -/
def filter_columns (cols : List String) (t : String) : List String :=
  t :: cols.filter (fun c =>
    (c != t) && !(IGNORE_EXACT.contains c)
      && !(IGNORE_PREFIXES.any (fun p => p.data.isPrefixOf c.data)))

/-- data_cols from main: every column of the filtered frame except the
time column. -/
def data_cols (t : Table) : List String :=
  (filter_columns t.cols tcol).filter (fun c => c != tcol)

/-- split_roles from the source: membership filters for EEG names,
ECG_CHANNELS keys, and the literal "CM". -/
def split_roles (cols : List String) : List String × List String × List String :=
  (cols.filter (fun c => EEG_CHANNELS.contains c),
   cols.filter (fun c => (List.lookup c ECG_CHANNELS).isSome),
   cols.filter (fun c => c == "CM"))

/-- Comparison key for sort_values on the time column (total on the rows
that survive dropna, where time is always some). -/
def timeLe (a b : Row) : Prop := a.time.getD 0 ≤ b.time.getD 0

instance : DecidableRel timeLe :=
  fun a b => inferInstanceAs (Decidable (a.time.getD 0 ≤ b.time.getD 0))

instance : IsTotal Row timeLe := ⟨fun a b => le_total (a.time.getD 0) (b.time.getD 0)⟩

instance : IsTrans Row timeLe := ⟨fun _ _ _ hab hbc => le_trans hab hbc⟩

/-- df.dropna(subset=[tcol]).sort_values(tcol) from main: drop rows whose
coerced time is missing, then sort ascending by time (modelled by a
sorting function; the claims depend only on the output being a sorted
permutation of the kept rows). -/
def processRows (rows : List Row) : List Row :=
  List.insertionSort timeLe (rows.filter (fun r => r.time.isSome))

/-- Projection of one data column of the processed frame. -/
def colSeries (rows : List Row) (c : String) : List ℚ :=
  rows.map (fun r => r.cells c)

/-- The numeric time column of the processed frame (every surviving row
has time = some q). -/
def timeSeries (rows : List Row) : List ℚ :=
  rows.map (fun r => r.time.getD 0)

/-- ECG_CHANNELS[raw] from the source; total here via getD, only ever
applied to keys of the mapping. -/
def nice (raw : String) : String := (List.lookup raw ECG_CHANNELS).getD raw

/-- Python dict assignment d[k] = v: overwrite in place when k is already
a key, append otherwise; iteration order is insertion order. -/
def dictInsert (d : List (String × List ℚ)) (k : String) (v : List ℚ) :
    List (String × List ℚ) :=
  if (List.lookup k d).isSome then
    d.map (fun p => if p.1 == k then (k, v) else p)
  else d ++ [(k, v)]

/-- The loop of main building ecg_uv and ecg_mv: for each raw ECG column,
insert nice + " (μV)" mapped to the column times 1000, and nice + " (mV)"
mapped to the column unscaled. -/
def build_ecg (rows : List Row) (raws : List String) :
    List (String × List ℚ) × List (String × List ℚ) :=
  raws.foldl
    (fun acc raw =>
      (dictInsert acc.1 (nice raw ++ " (μV)")
        ((colSeries rows raw).map (fun v => v * 1000)),
       dictInsert acc.2 (nice raw ++ " (mV)") (colSeries rows raw)))
    ([], [])

/-- A plotly scatter trace as configured by main: name, x and y data,
the visible attribute (none = library default, rendered visible),
the axis assignment, and the line dash attribute (none = solid). -/
structure Trace where
  name : String
  x : List ℚ
  y : List ℚ
  visible : Option Bool
  secondary_y : Bool
  line_dash : Option String
deriving DecidableEq

/-- EEG role columns of a table. -/
def eeg_cols (t : Table) : List String := (split_roles (data_cols t)).1

/-- ECG-raw role columns of a table. -/
def ecg_raw_cols (t : Table) : List String := (split_roles (data_cols t)).2.1

/-- CM (reference) role columns of a table. -/
def cm_cols (t : Table) : List String := (split_roles (data_cols t)).2.2

/-- The ecg_uv dict of main, built over the processed rows. -/
def ecg_uv (t : Table) : List (String × List ℚ) :=
  (build_ecg (processRows t.rows) (ecg_raw_cols t)).1

/-- The ecg_mv dict of main, built over the processed rows. -/
def ecg_mv (t : Table) : List (String × List ℚ) :=
  (build_ecg (processRows t.rows) (ecg_raw_cols t)).2

/-- First add_trace loop of main: one trace per EEG column, named by the
raw column name, primary axis, solid line, default visibility. -/
def eegTraces (t : Table) : List Trace :=
  (eeg_cols t).map (fun ch =>
    Trace.mk ch (timeSeries (processRows t.rows))
      (colSeries (processRows t.rows) ch) none false none)

/-- Second add_trace loop of main: one trace per CM column, fixed name,
secondary axis, dotted line, default visibility. -/
def cmTraces (t : Table) : List Trace :=
  (cm_cols t).map (fun ch =>
    Trace.mk "CM (μV, reference)" (timeSeries (processRows t.rows))
      (colSeries (processRows t.rows) ch) none true (some "dot"))

/-- Third add_trace loop of main: one trace per ecg_mv item, secondary
axis, solid line, default visibility. -/
def mvTraces (t : Table) : List Trace :=
  (ecg_mv t).map (fun p =>
    Trace.mk p.1 (timeSeries (processRows t.rows)) p.2 none true none)

/-- Fourth add_trace loop of main: one trace per ecg_uv item, secondary
axis, solid line, visible=False. -/
def uvTraces (t : Table) : List Trace :=
  (ecg_uv t).map (fun p =>
    Trace.mk p.1 (timeSeries (processRows t.rows)) p.2 (some false) true none)

/-- fig.data after the four add_trace loops, in source order. -/
def allTraces (t : Table) : List Trace :=
  eegTraces t ++ cmTraces t ++ mvTraces t ++ uvTraces t

/-- The vis[i] = b assignments of the visibility loops in main. -/
def set_all (v : List Bool) (idxs : List ℕ) (b : Bool) : List Bool :=
  idxs.foldl (fun acc i => acc.set i b) v

/-- unit_mode_visibility from the source: read each trace visible
attribute (treating the unset default as True), then overwrite the
ECG_mV and ECG_uV entries according to the mode. -/
def unit_mode_visibility (traces : List Trace) (mvIdx uvIdx : List ℕ)
    (mode : String) : List Bool :=
  let vis := traces.map (fun tr => tr.visible.getD true)
  if mode == "mV" then set_all (set_all vis mvIdx true) uvIdx false
  else set_all (set_all vis mvIdx false) uvIdx true

/-- The chart scene assembled by main: the trace list, the secondary axis
flag, the four trace index groups recorded during the add_trace loops,
the three Menu 1 preset vectors, and the two Menu 2 vectors (computed at
build time by calling unit_mode_visibility while constructing the
updatemenus layout). -/
structure Scene where
  traces : List Trace
  use_secondary : Bool
  idx_EEG : List ℕ
  idx_CM : List ℕ
  idx_ECG_mV : List ℕ
  idx_ECG_uV : List ℕ
  visibility_all : List Bool
  vis_eeg_only : List Bool
  vis_other_only : List Bool
  vis_unit_mV : List Bool
  vis_unit_uV : List Bool
deriving DecidableEq

/-- The scene built by main after the two validations pass. The index
groups are the contiguous blocks produced by the sequential add_trace
loops; vis_other_only sets the CM and ECG_mV groups true and skips the
ECG_uV group (the continue branch of the loop). -/
def buildScene (t : Table) : Scene :=
  let tr := allTraces t
  let i1 := List.range' 0 (eegTraces t).length
  let i2 := List.range' (eegTraces t).length (cmTraces t).length
  let i3 := List.range' ((eegTraces t).length + (cmTraces t).length)
              (mvTraces t).length
  let i4 := List.range'
              ((eegTraces t).length + (cmTraces t).length + (mvTraces t).length)
              (uvTraces t).length
  Scene.mk tr
    (decide (0 < (ecg_uv t).length + (cm_cols t).length))
    i1 i2 i3 i4
    (List.replicate tr.length true)
    (set_all (List.replicate tr.length false) i1 true)
    (set_all (set_all (List.replicate tr.length false) i2 true) i3 true)
    (unit_mode_visibility tr i3 i4 "mV")
    (unit_mode_visibility tr i3 i4 "uV")

/-- main, from reading the parsed table to the decision to write the
artifact: SystemExit when the Time column is absent, SystemExit when no
column classifies into any productive role, otherwise the built scene
(which main serializes to the output HTML file). -/
def main_result (t : Table) : Except String Scene :=
  if tcol ∈ t.cols then
    if (eeg_cols t).isEmpty && (ecg_raw_cols t).isEmpty && (cm_cols t).isEmpty then
      Except.error "No EEG/ECG/CM columns found after filtering. Check headers."
    else Except.ok (buildScene t)
  else Except.error ("Expected \x27" ++ tcol ++ "\x27 column not found.")

/-- Selecting a dropdown option whose method is "update" makes the viewer
replace the per-trace visibility vector with the vector stored in the
option args. The args were fixed when the figure was built, so the
current viewer state does not enter. -/
def apply_visibility_button (_current stored : List Bool) : List Bool := stored

/-- A concrete example table: columns as in the spec scenario, with one
row whose time fails numeric coercion and the remaining rows out of
order. -/
def Tex : Table :=
  Table.mk ["Time", "Fz", "X1:LEOG", "CM", "Trigger"]
    [Row.mk (some 2)
      (fun c => if c == "Fz" then 5 else if c == "X1:LEOG" then 3
                else if c == "CM" then 1 else 0),
     Row.mk none (fun _ => 7),
     Row.mk (some 1)
      (fun c => if c == "Fz" then 2 else if c == "X1:LEOG" then 4
                else if c == "CM" then 6 else 0)]

/- Helper lemmas about the embedding. -/

theorem length_set_all (idxs : List ℕ) (v : List Bool) (b : Bool) :
    (set_all v idxs b).length = v.length := by
  induction idxs generalizing v with
  | nil => rfl
  | cons j idxs ih =>
    have h1 : set_all v (j :: idxs) b = set_all (v.set j b) idxs b := rfl
    rw [h1, ih, List.length_set]

theorem getElem?_set_all (idxs : List ℕ) (v : List Bool) (b : Bool) (i : ℕ) :
    (set_all v idxs b)[i]? = if i ∈ idxs ∧ i < v.length then some b else v[i]? := by
  induction idxs generalizing v with
  | nil => simp [set_all]
  | cons j idxs ih =>
    have h1 : set_all v (j :: idxs) b = set_all (v.set j b) idxs b := rfl
    rw [h1, ih, List.length_set, List.getElem?_set]
    by_cases hmem : i ∈ idxs
    · by_cases hlen : i < v.length
      · simp [hmem, hlen]
      · by_cases hji : j = i
        · subst hji
          simp [hmem, hlen, List.getElem?_eq_none (Nat.le_of_not_lt hlen)]
        · simp [hmem, hlen, hji]
    · by_cases hji : j = i
      · subst hji
        by_cases hlen : j < v.length
        · simp [hmem, hlen]
        · simp [hmem, hlen, List.getElem?_eq_none (Nat.le_of_not_lt hlen)]
      · have hij : i ≠ j := fun h2 => hji h2.symm
        simp [hmem, hji, hij]

theorem lookup_ecg_isSome (c : String) :
    (List.lookup c ECG_CHANNELS).isSome ↔ (c = "X1:LEOG" ∨ c = "X2:REOG") := by
  simp [ECG_CHANNELS, List.lookup]
  split <;> simp_all <;> split <;> simp_all

theorem lookup_eq_none_of_not_mem_keys {β : Type} (d : List (String × β)) (k : String) :
    k ∉ d.map Prod.fst → List.lookup k d = none := by
  induction d with
  | nil => intro _; rfl
  | cons p d ih =>
    intro h
    cases p with
    | mk a b =>
      simp only [List.map_cons, List.mem_cons] at h
      push_neg at h
      have hka : (k == a) = false := beq_eq_false_iff_ne.mpr h.1
      simp only [List.lookup_cons, hka]
      exact ih h.2

theorem dictInsert_fresh (d : List (String × List ℚ)) (k : String) (v : List ℚ)
    (h : k ∉ d.map Prod.fst) : dictInsert d k v = d ++ [(k, v)] := by
  rw [dictInsert, lookup_eq_none_of_not_mem_keys d k h]
  rfl

theorem nodup_map_on_keys (f : String → String)
    (hf : f "X1:LEOG" ≠ f "X2:REOG") (l : List String) (hl : l.Nodup)
    (hmem : ∀ c ∈ l, (List.lookup c ECG_CHANNELS).isSome) :
    (l.map f).Nodup := by
  refine List.Nodup.map_on ?_ hl
  intro x hx y hy hfxy
  rcases (lookup_ecg_isSome x).mp (hmem x hx) with hx1 | hx1 <;>
    rcases (lookup_ecg_isSome y).mp (hmem y hy) with hy1 | hy1 <;>
      subst hx1 <;> subst hy1 <;> first
        | rfl
        | exact absurd hfxy hf
        | exact absurd hfxy.symm hf

theorem build_ecg_go (rows : List Row) (raws : List String)
    (uv0 mv0 : List (String × List ℚ))
    (hn : (raws.map (fun r => nice r ++ " (μV)")).Nodup)
    (hm : (raws.map (fun r => nice r ++ " (mV)")).Nodup)
    (hu : ∀ r ∈ raws, (nice r ++ " (μV)") ∉ uv0.map Prod.fst)
    (hv : ∀ r ∈ raws, (nice r ++ " (mV)") ∉ mv0.map Prod.fst) :
    raws.foldl
      (fun acc raw =>
        (dictInsert acc.1 (nice raw ++ " (μV)")
          ((colSeries rows raw).map (fun v => v * 1000)),
         dictInsert acc.2 (nice raw ++ " (mV)") (colSeries rows raw)))
      (uv0, mv0)
    = (uv0 ++ raws.map (fun raw =>
         (nice raw ++ " (μV)", (colSeries rows raw).map (fun v => v * 1000))),
       mv0 ++ raws.map (fun raw => (nice raw ++ " (mV)", colSeries rows raw))) := by
  induction raws generalizing uv0 mv0 with
  | nil => simp
  | cons r raws ih =>
    simp only [List.foldl_cons]
    rw [dictInsert_fresh _ _ _ (hu r (List.mem_cons_self r raws)),
        dictInsert_fresh _ _ _ (hv r (List.mem_cons_self r raws))]
    simp only [List.map_cons, List.nodup_cons] at hn hm
    rw [ih _ _ hn.2 hm.2 ?_ ?_]
    · simp
    · intro r2 hr2
      simp only [List.map_append, List.mem_append]
      push_neg
      refine ⟨hu r2 (List.mem_cons_of_mem r hr2), ?_⟩
      have hne : nice r2 ++ " (μV)" ≠ nice r ++ " (μV)" := by
        intro he
        exact hn.1 (by rw [← he]; exact List.mem_map_of_mem _ hr2)
      simp [hne]
    · intro r2 hr2
      simp only [List.map_append, List.mem_append]
      push_neg
      refine ⟨hv r2 (List.mem_cons_of_mem r hr2), ?_⟩
      have hne : nice r2 ++ " (mV)" ≠ nice r ++ " (mV)" := by
        intro he
        exact hm.1 (by rw [← he]; exact List.mem_map_of_mem _ hr2)
      simp [hne]

theorem data_cols_eq (t : Table) :
    data_cols t = t.cols.filter (fun c =>
      (c != tcol) && !(IGNORE_EXACT.contains c)
        && !(IGNORE_PREFIXES.any (fun p => p.data.isPrefixOf c.data))) := by
  unfold data_cols filter_columns
  rw [List.filter_cons]
  have hcond : ((tcol != tcol) = true) = False := by simp
  rw [if_neg (by simp)]
  rw [List.filter_filter]
  refine List.filter_congr ?_
  intro c _
  by_cases h1 : c = tcol <;> simp [h1]

theorem data_cols_sublist (t : Table) : (data_cols t).Sublist t.cols := by
  rw [data_cols_eq]
  exact List.filter_sublist t.cols

theorem ecg_raw_cols_sublist (t : Table) : (ecg_raw_cols t).Sublist (data_cols t) :=
  List.filter_sublist (data_cols t)

theorem ecg_raw_cols_nodup (t : Table) (h : t.cols.Nodup) : (ecg_raw_cols t).Nodup :=
  ((ecg_raw_cols_sublist t).trans (data_cols_sublist t)).nodup h

theorem ecg_raw_cols_lookup (t : Table) (c : String) (h : c ∈ ecg_raw_cols t) :
    (List.lookup c ECG_CHANNELS).isSome := by
  have h2 := List.mem_filter.mp h
  exact h2.2

theorem ecg_dicts_eq (t : Table) (h : t.cols.Nodup) :
    ecg_uv t = (ecg_raw_cols t).map (fun raw =>
        (nice raw ++ " (μV)", (colSeries (processRows t.rows) raw).map (fun v => v * 1000)))
    ∧ ecg_mv t = (ecg_raw_cols t).map (fun raw =>
        (nice raw ++ " (mV)", colSeries (processRows t.rows) raw)) := by
  have hnodup := ecg_raw_cols_nodup t h
  have hmem := ecg_raw_cols_lookup t
  have hgo := build_ecg_go (processRows t.rows) (ecg_raw_cols t) [] []
    (nodup_map_on_keys _ (by decide) _ hnodup (fun c hc => hmem c hc))
    (nodup_map_on_keys _ (by decide) _ hnodup (fun c hc => hmem c hc))
    (by simp) (by simp)
  constructor
  · have := congrArg Prod.fst hgo
    simpa [ecg_uv, build_ecg] using this
  · have := congrArg Prod.snd hgo
    simpa [ecg_mv, build_ecg] using this

theorem mvTraces_eq (t : Table) (h : t.cols.Nodup) :
    mvTraces t = (ecg_raw_cols t).map (fun raw =>
      Trace.mk (nice raw ++ " (mV)") (timeSeries (processRows t.rows))
        (colSeries (processRows t.rows) raw) none true none) := by
  rw [mvTraces, (ecg_dicts_eq t h).2, List.map_map]
  rfl

theorem uvTraces_eq (t : Table) (h : t.cols.Nodup) :
    uvTraces t = (ecg_raw_cols t).map (fun raw =>
      Trace.mk (nice raw ++ " (μV)") (timeSeries (processRows t.rows))
        ((colSeries (processRows t.rows) raw).map (fun v => v * 1000))
        (some false) true none) := by
  rw [uvTraces, (ecg_dicts_eq t h).1, List.map_map]
  rfl

theorem length_eegTraces (t : Table) : (eegTraces t).length = (eeg_cols t).length := by
  simp [eegTraces]

theorem length_cmTraces (t : Table) : (cmTraces t).length = (cm_cols t).length := by
  simp [cmTraces]

theorem length_mvTraces (t : Table) (h : t.cols.Nodup) :
    (mvTraces t).length = (ecg_raw_cols t).length := by
  simp [mvTraces_eq t h]

theorem length_uvTraces (t : Table) (h : t.cols.Nodup) :
    (uvTraces t).length = (ecg_raw_cols t).length := by
  simp [uvTraces_eq t h]

theorem length_allTraces (t : Table) (h : t.cols.Nodup) :
    (allTraces t).length =
      (eeg_cols t).length + (cm_cols t).length + 2 * (ecg_raw_cols t).length := by
  simp [allTraces, length_eegTraces, length_cmTraces, length_mvTraces t h,
    length_uvTraces t h]
  ring

theorem initial_vis_eq (t : Table) (h : t.cols.Nodup) :
    (allTraces t).map (fun tr => tr.visible.getD true) =
      List.replicate
        ((eeg_cols t).length + (cm_cols t).length + (ecg_raw_cols t).length) true
      ++ List.replicate (ecg_raw_cols t).length false := by
  have h1 : (eegTraces t).map (fun tr => tr.visible.getD true) =
      List.replicate (eeg_cols t).length true := by
    rw [eegTraces, List.map_map]
    exact List.map_const' (eeg_cols t) true
  have h2 : (cmTraces t).map (fun tr => tr.visible.getD true) =
      List.replicate (cm_cols t).length true := by
    rw [cmTraces, List.map_map]
    exact List.map_const' (cm_cols t) true
  have h3 : (mvTraces t).map (fun tr => tr.visible.getD true) =
      List.replicate (ecg_raw_cols t).length true := by
    rw [mvTraces_eq t h, List.map_map]
    exact List.map_const' (ecg_raw_cols t) true
  have h4 : (uvTraces t).map (fun tr => tr.visible.getD true) =
      List.replicate (ecg_raw_cols t).length false := by
    rw [uvTraces_eq t h, List.map_map]
    exact List.map_const' (ecg_raw_cols t) false
  rw [allTraces]
  simp only [List.map_append]
  rw [h1, h2, h3, h4, List.replicate_add, List.replicate_add]

theorem buildScene_traces (t : Table) : (buildScene t).traces = allTraces t := rfl

theorem buildScene_use_secondary (t : Table) :
    (buildScene t).use_secondary =
      decide (0 < (ecg_uv t).length + (cm_cols t).length) := rfl

theorem buildScene_idx_EEG (t : Table) :
    (buildScene t).idx_EEG = List.range' 0 (eegTraces t).length := rfl

theorem buildScene_idx_CM (t : Table) :
    (buildScene t).idx_CM =
      List.range' (eegTraces t).length (cmTraces t).length := rfl

theorem buildScene_idx_mV (t : Table) :
    (buildScene t).idx_ECG_mV =
      List.range' ((eegTraces t).length + (cmTraces t).length)
        (mvTraces t).length := rfl

theorem buildScene_idx_uV (t : Table) :
    (buildScene t).idx_ECG_uV =
      List.range'
        ((eegTraces t).length + (cmTraces t).length + (mvTraces t).length)
        (uvTraces t).length := rfl

theorem buildScene_visibility_all (t : Table) :
    (buildScene t).visibility_all = List.replicate (allTraces t).length true := rfl

theorem buildScene_vis_eeg_only (t : Table) :
    (buildScene t).vis_eeg_only =
      set_all (List.replicate (allTraces t).length false)
        (buildScene t).idx_EEG true := rfl

theorem buildScene_vis_other_only (t : Table) :
    (buildScene t).vis_other_only =
      set_all (set_all (List.replicate (allTraces t).length false)
        (buildScene t).idx_CM true) (buildScene t).idx_ECG_mV true := rfl

theorem buildScene_vis_unit_mV (t : Table) :
    (buildScene t).vis_unit_mV =
      unit_mode_visibility (allTraces t)
        (buildScene t).idx_ECG_mV (buildScene t).idx_ECG_uV "mV" := rfl

theorem buildScene_vis_unit_uV (t : Table) :
    (buildScene t).vis_unit_uV =
      unit_mode_visibility (allTraces t)
        (buildScene t).idx_ECG_mV (buildScene t).idx_ECG_uV "uV" := rfl

theorem getElem?_replicate_append {α : Type} (a b : α) (m n i : ℕ) :
    (List.replicate m a ++ List.replicate n b)[i]? =
      if i < m then some a else if i < m + n then some b else none := by
  by_cases h1 : i < m
  · rw [List.getElem?_append_left (by simpa using h1), List.getElem?_replicate,
      if_pos h1, if_pos h1]
  · rw [List.getElem?_append_right (by simpa using Nat.le_of_not_lt h1),
      List.getElem?_replicate, List.length_replicate, if_neg h1]
    by_cases h2 : i < m + n
    · rw [if_pos (by omega), if_pos h2]
    · rw [if_neg (by omega), if_neg h2]

/- Per-index characterization of the five visibility vectors, under the
hypothesis that column names are distinct (pd.read_csv renames duplicate
headers, so tables produced by the loader always satisfy it). -/

theorem vis_all_get (t : Table) (i : ℕ) (hi : i < (allTraces t).length) :
    (buildScene t).visibility_all[i]? = some true := by
  rw [buildScene_visibility_all, List.getElem?_replicate, if_pos hi]

theorem vis_eeg_only_get (t : Table) (i : ℕ) (hi : i < (allTraces t).length) :
    (buildScene t).vis_eeg_only[i]? =
      some (decide (i < (eegTraces t).length)) := by
  rw [buildScene_vis_eeg_only, getElem?_set_all, buildScene_idx_EEG]
  simp only [List.length_replicate, List.mem_range'_1, List.getElem?_replicate]
  by_cases h1 : i < (eegTraces t).length
  · rw [if_pos ⟨⟨Nat.zero_le i, by omega⟩, hi⟩]
    simp [h1]
  · rw [if_neg (by omega), if_pos hi]
    simp [h1]

theorem vis_other_only_get (t : Table) (i : ℕ) (hi : i < (allTraces t).length) :
    (buildScene t).vis_other_only[i]? =
      some (decide ((eegTraces t).length ≤ i ∧
        i < (eegTraces t).length + (cmTraces t).length + (mvTraces t).length)) := by
  rw [buildScene_vis_other_only, getElem?_set_all, getElem?_set_all,
    buildScene_idx_CM, buildScene_idx_mV]
  simp only [length_set_all, List.length_replicate, List.mem_range'_1,
    List.getElem?_replicate]
  by_cases h1 : (eegTraces t).length + (cmTraces t).length ≤ i ∧
      i < (eegTraces t).length + (cmTraces t).length + (mvTraces t).length
  · rw [if_pos ⟨by omega, hi⟩]
    simp; omega
  · rw [if_neg (by omega)]
    by_cases h2 : (eegTraces t).length ≤ i ∧
        i < (eegTraces t).length + (cmTraces t).length
    · rw [if_pos ⟨by omega, hi⟩]
      simp; omega
    · rw [if_neg (by omega), if_pos hi]
      simp; omega

theorem vis_unit_get_nonECG (t : Table) (h : t.cols.Nodup) (i : ℕ)
    (hi : i < (eegTraces t).length + (cmTraces t).length) :
    (buildScene t).vis_unit_mV[i]? = some true ∧
    (buildScene t).vis_unit_uV[i]? = some true := by
  have e1 : (buildScene t).vis_unit_mV =
      set_all (set_all ((allTraces t).map (fun tr => tr.visible.getD true))
        (buildScene t).idx_ECG_mV true) (buildScene t).idx_ECG_uV false := rfl
  have e2 : (buildScene t).vis_unit_uV =
      set_all (set_all ((allTraces t).map (fun tr => tr.visible.getD true))
        (buildScene t).idx_ECG_mV false) (buildScene t).idx_ECG_uV true := rfl
  have hmv : i ∉ (buildScene t).idx_ECG_mV := by
    rw [buildScene_idx_mV]
    simp only [List.mem_range'_1]
    omega
  have huv : i ∉ (buildScene t).idx_ECG_uV := by
    rw [buildScene_idx_uV]
    simp only [List.mem_range'_1]
    omega
  have hbase : ((allTraces t).map (fun tr => tr.visible.getD true))[i]? = some true := by
    rw [initial_vis_eq t h, getElem?_replicate_append]
    rw [length_eegTraces, length_cmTraces] at hi
    rw [if_pos (by omega)]
  refine ⟨?_, ?_⟩
  · rw [e1, getElem?_set_all, getElem?_set_all]
    simp [hmv, huv, hbase]
  · rw [e2, getElem?_set_all, getElem?_set_all]
    simp [hmv, huv, hbase]

theorem stored_vis_eq (t : Table) (h : t.cols.Nodup) :
    (allTraces t).map (fun tr => tr.visible) =
      List.replicate
        ((eeg_cols t).length + (cm_cols t).length + (ecg_raw_cols t).length)
        (none : Option Bool)
      ++ List.replicate (ecg_raw_cols t).length (some false) := by
  have h1 : (eegTraces t).map (fun tr => tr.visible) =
      List.replicate (eeg_cols t).length (none : Option Bool) := by
    rw [eegTraces, List.map_map]
    exact List.map_const' (eeg_cols t) none
  have h2 : (cmTraces t).map (fun tr => tr.visible) =
      List.replicate (cm_cols t).length (none : Option Bool) := by
    rw [cmTraces, List.map_map]
    exact List.map_const' (cm_cols t) none
  have h3 : (mvTraces t).map (fun tr => tr.visible) =
      List.replicate (ecg_raw_cols t).length (none : Option Bool) := by
    rw [mvTraces_eq t h, List.map_map]
    exact List.map_const' (ecg_raw_cols t) none
  have h4 : (uvTraces t).map (fun tr => tr.visible) =
      List.replicate (ecg_raw_cols t).length (some false) := by
    rw [uvTraces_eq t h, List.map_map]
    exact List.map_const' (ecg_raw_cols t) (some false)
  rw [allTraces]
  simp only [List.map_append]
  rw [h1, h2, h3, h4, List.replicate_add, List.replicate_add]

theorem secondary_eq (t : Table) (h : t.cols.Nodup) :
    (allTraces t).map (fun tr => tr.secondary_y) =
      List.replicate (eeg_cols t).length false
      ++ List.replicate
          ((cm_cols t).length + (ecg_raw_cols t).length + (ecg_raw_cols t).length)
          true := by
  have h1 : (eegTraces t).map (fun tr => tr.secondary_y) =
      List.replicate (eeg_cols t).length false := by
    rw [eegTraces, List.map_map]
    exact List.map_const' (eeg_cols t) false
  have h2 : (cmTraces t).map (fun tr => tr.secondary_y) =
      List.replicate (cm_cols t).length true := by
    rw [cmTraces, List.map_map]
    exact List.map_const' (cm_cols t) true
  have h3 : (mvTraces t).map (fun tr => tr.secondary_y) =
      List.replicate (ecg_raw_cols t).length true := by
    rw [mvTraces_eq t h, List.map_map]
    exact List.map_const' (ecg_raw_cols t) true
  have h4 : (uvTraces t).map (fun tr => tr.secondary_y) =
      List.replicate (ecg_raw_cols t).length true := by
    rw [uvTraces_eq t h, List.map_map]
    exact List.map_const' (ecg_raw_cols t) true
  rw [allTraces]
  simp only [List.map_append]
  rw [h1, h2, h3, h4, List.replicate_add, List.replicate_add]
  simp [List.append_assoc]

theorem x_axis_eq (t : Table) :
    (allTraces t).map (fun tr => tr.x) =
      List.replicate (allTraces t).length (timeSeries (processRows t.rows)) := by
  have h1 : ∀ l : List Trace,
      (∀ tr ∈ l, tr.x = timeSeries (processRows t.rows)) →
      l.map (fun tr => tr.x) =
        List.replicate l.length (timeSeries (processRows t.rows)) := by
    intro l hl
    induction l with
    | nil => rfl
    | cons a l ih =>
      simp only [List.map_cons, List.length_cons, List.replicate_succ]
      rw [hl a (List.mem_cons_self a l), ih (fun tr htr => hl tr (List.mem_cons_of_mem a htr))]
  refine h1 (allTraces t) ?_
  intro tr htr
  rw [allTraces] at htr
  simp only [List.mem_append, eegTraces, cmTraces, mvTraces, uvTraces, List.mem_map] at htr
  rcases htr with ((⟨c, _, hc⟩ | ⟨c, _, hc⟩) | ⟨p, _, hc⟩) | ⟨p, _, hc⟩ <;> rw [← hc]

theorem dictInsert_ne_nil (d : List (String × List ℚ)) (k : String) (v : List ℚ) :
    dictInsert d k v ≠ [] := by
  rw [dictInsert]
  split
  · intro he
    rename_i hs
    rw [List.map_eq_nil_iff] at he
    subst he
    simp [List.lookup] at hs
  · simp

theorem foldl_ecg_snd_ne_nil (rows : List Row) (l : List String)
    (acc : List (String × List ℚ) × List (String × List ℚ)) (hacc : acc.2 ≠ []) :
    (l.foldl
      (fun acc raw =>
        (dictInsert acc.1 (nice raw ++ " (μV)")
          ((colSeries rows raw).map (fun v => v * 1000)),
         dictInsert acc.2 (nice raw ++ " (mV)") (colSeries rows raw)))
      acc).2 ≠ [] := by
  induction l generalizing acc with
  | nil => exact hacc
  | cons r rs ih =>
    simp only [List.foldl_cons]
    exact ih _ (dictInsert_ne_nil _ _ _)

theorem ecg_mv_ne_nil (t : Table) (hr : ecg_raw_cols t ≠ []) : ecg_mv t ≠ [] := by
  rw [ecg_mv, build_ecg]
  cases hc : ecg_raw_cols t with
  | nil => exact absurd hc hr
  | cons r rs =>
    simp only [List.foldl_cons]
    refine foldl_ecg_snd_ne_nil _ rs _ ?_
    show dictInsert [] (nice r ++ " (mV)") (colSeries (processRows t.rows) r) ≠ []
    exact dictInsert_ne_nil _ _ _

theorem allTraces_ne_nil (t : Table)
    (h : ¬(eeg_cols t = [] ∧ ecg_raw_cols t = [] ∧ cm_cols t = [])) :
    allTraces t ≠ [] := by
  intro hnil
  rw [allTraces] at hnil
  simp only [List.append_eq_nil] at hnil
  obtain ⟨⟨⟨h1, h2⟩, h3⟩, h4⟩ := hnil
  refine h ⟨?_, ?_, ?_⟩
  · rwa [eegTraces, List.map_eq_nil_iff] at h1
  · by_contra hr
    exact ecg_mv_ne_nil t hr (by rwa [mvTraces, List.map_eq_nil_iff] at h3)
  · rwa [cmTraces, List.map_eq_nil_iff] at h2

theorem nice_mv_inj (a b : String) (ha : (List.lookup a ECG_CHANNELS).isSome)
    (hb : (List.lookup b ECG_CHANNELS).isSome) :
    nice a ++ " (mV)" = nice b ++ " (mV)" → a = b := by
  rcases (lookup_ecg_isSome a).mp ha with h1 | h1 <;>
    rcases (lookup_ecg_isSome b).mp hb with h2 | h2 <;>
      subst h1 <;> subst h2 <;> intro he <;>
        first | rfl | exact absurd he (by decide)

theorem nice_uv_inj (a b : String) (ha : (List.lookup a ECG_CHANNELS).isSome)
    (hb : (List.lookup b ECG_CHANNELS).isSome) :
    nice a ++ " (μV)" = nice b ++ " (μV)" → a = b := by
  rcases (lookup_ecg_isSome a).mp ha with h1 | h1 <;>
    rcases (lookup_ecg_isSome b).mp hb with h2 | h2 <;>
      subst h1 <;> subst h2 <;> intro he <;>
        first | rfl | exact absurd he (by decide)

theorem filter_map_key_singleton (f : String → Trace) (key : String → String)
    (hname : ∀ c, (f c).name = key c) (l : List String) :
    l.Nodup → ∀ raw, raw ∈ l → (∀ a ∈ l, key a = key raw → a = raw) →
    (l.map f).filter (fun tr => tr.name == key raw) = [f raw] := by
  induction l with
  | nil =>
    intro _ raw hraw _
    exact absurd hraw (List.not_mem_nil raw)
  | cons a l ih =>
    intro hnd raw hraw hinj
    rw [List.nodup_cons] at hnd
    simp only [List.map_cons, List.filter_cons]
    rcases List.mem_cons.mp hraw with heq | hmem
    · subst heq
      rw [if_pos (by simp [hname])]
      have hnil : (l.map f).filter (fun tr => tr.name == key raw) = [] := by
        rw [List.filter_eq_nil_iff]
        intro tr htr
        rcases List.mem_map.mp htr with ⟨b, hb, rfl⟩
        simp only [hname, beq_iff_eq]
        intro hkey
        have hba := hinj b (List.mem_cons_of_mem raw hb) hkey
        rw [hba] at hb
        exact hnd.1 hb
      rw [hnil]
    · have hne : key a ≠ key raw := by
        intro hk
        have ha := hinj a (List.mem_cons_self a l) hk
        rw [ha] at hnd
        exact hnd.1 hmem
      rw [if_neg (by simp [hname, hne])]
      exact ih hnd.2 raw hmem (fun b hb hk => hinj b (List.mem_cons_of_mem a hb) hk)

theorem map_eq_replicate_of_const {α β : Type} (l : List α) (g : α → β) (c : β)
    (hg : ∀ x ∈ l, g x = c) : l.map g = List.replicate l.length c := by
  induction l with
  | nil => rfl
  | cons a l ih =>
    simp only [List.map_cons, List.length_cons, List.replicate_succ]
    rw [hg a (List.mem_cons_self a l), ih (fun x hx => hg x (List.mem_cons_of_mem a hx))]

theorem y_len_eq (t : Table) (h : t.cols.Nodup) :
    (allTraces t).map (fun tr => tr.y.length) =
      List.replicate (allTraces t).length (processRows t.rows).length := by
  refine map_eq_replicate_of_const _ _ _ ?_
  intro tr htr
  rw [allTraces, mvTraces_eq t h, uvTraces_eq t h] at htr
  simp only [List.mem_append, eegTraces, cmTraces, List.mem_map] at htr
  rcases htr with ((⟨c, _, hc⟩ | ⟨c, _, hc⟩) | ⟨c, _, hc⟩) | ⟨c, _, hc⟩ <;>
    rw [← hc] <;> simp [colSeries]

/- The claim theorems. -/

/-- C3: on a parseable input table, main fails with a SystemExit message
if and only if the Time column is absent or no column classifies as EEG,
ECG-raw, or CM after ignore-filtering; in every other case it returns a
scene with at least one trace, which it serializes to the output file. -/
theorem C3_validation (t : Table) :
    ((∃ e, main_result t = Except.error e) ↔
      (tcol ∉ t.cols ∨ (eeg_cols t = [] ∧ ecg_raw_cols t = [] ∧ cm_cols t = []))) ∧
    (∀ s, main_result t = Except.ok s → s.traces ≠ []) ∧
    ((tcol ∈ t.cols ∧ ¬(eeg_cols t = [] ∧ ecg_raw_cols t = [] ∧ cm_cols t = [])) →
      main_result t = Except.ok (buildScene t)) := by
  have hcond : ((eeg_cols t).isEmpty && (ecg_raw_cols t).isEmpty
      && (cm_cols t).isEmpty) = true ↔
      (eeg_cols t = [] ∧ ecg_raw_cols t = [] ∧ cm_cols t = []) := by
    simp [List.isEmpty_iff, and_assoc]
  by_cases hmem : tcol ∈ t.cols
  · by_cases hempty : eeg_cols t = [] ∧ ecg_raw_cols t = [] ∧ cm_cols t = []
    · have hres : main_result t =
          Except.error "No EEG/ECG/CM columns found after filtering. Check headers." := by
        rw [main_result, if_pos hmem, if_pos (hcond.mpr hempty)]
      refine ⟨⟨fun _ => Or.inr hempty, fun _ => ⟨_, hres⟩⟩, ?_, ?_⟩
      · intro s hs
        rw [hres] at hs
        exact absurd hs (by simp)
      · intro hpos
        exact absurd hempty hpos.2
    · have hres : main_result t = Except.ok (buildScene t) := by
        rw [main_result, if_pos hmem, if_neg (fun hc => hempty (hcond.mp hc))]
      refine ⟨⟨?_, ?_⟩, ?_, fun _ => hres⟩
      · intro ⟨e, he⟩
        rw [hres] at he
        exact absurd he (by simp)
      · intro hor
        rcases hor with h1 | h1
        · exact absurd hmem h1
        · exact absurd h1 hempty
      · intro s hs
        rw [hres] at hs
        have hs2 : buildScene t = s := by
          simpa using hs
        rw [← hs2, buildScene_traces]
        exact allTraces_ne_nil t hempty
  · have hres : main_result t =
        Except.error ("Expected \x27" ++ tcol ++ "\x27 column not found.") := by
      rw [main_result, if_neg hmem]
    refine ⟨⟨fun _ => Or.inl hmem, fun _ => ⟨_, hres⟩⟩, ?_, ?_⟩
    · intro s hs
      rw [hres] at hs
      exact absurd hs (by simp)
    · intro hpos
      exact absurd hpos.1 hmem

/-- C4: rows whose time value failed numeric coercion are dropped before
any trace is built, and the surviving rows are sorted ascending by time:
the x data of every trace equals the common processed time axis, which is
a permutation of the times of exactly the coercible rows and is
non-decreasing; every trace has one y value per surviving row. -/
theorem C4_time_processing (t : Table) (h : t.cols.Nodup) (i : ℕ)
    (hi : i < (allTraces t).length) :
    ((buildScene t).traces[i]?).map (fun tr => tr.x)
      = some (timeSeries (processRows t.rows)) ∧
    (timeSeries (processRows t.rows)).Perm
      ((t.rows.filter (fun r => r.time.isSome)).map (fun r => r.time.getD 0)) ∧
    List.Sorted (· ≤ ·) (timeSeries (processRows t.rows)) ∧
    ((buildScene t).traces[i]?).map (fun tr => tr.y.length)
      = some (processRows t.rows).length := by
  refine ⟨?_, ?_, ?_, ?_⟩
  · rw [buildScene_traces, ← List.getElem?_map, x_axis_eq t, List.getElem?_replicate,
      if_pos hi]
  · have hp := List.perm_insertionSort timeLe (t.rows.filter (fun r => r.time.isSome))
    exact hp.map (fun r => r.time.getD 0)
  · have hs := List.sorted_insertionSort timeLe (t.rows.filter (fun r => r.time.isSome))
    show List.Pairwise (· ≤ ·) (List.map (fun r => r.time.getD 0) (processRows t.rows))
    refine List.pairwise_map.mpr (hs.imp ?_)
    intro a b hab
    exact hab
  · rw [buildScene_traces, ← List.getElem?_map, y_len_eq t h, List.getElem?_replicate,
      if_pos hi]

/-- C5: the role of a column is a pure function of its name: a non-time
column survives filtering exactly when it is outside the ignore set and
has no ignored name prefix, each surviving column is EEG exactly when it
is in the 21-label roster, ECG-raw exactly when it is a key of the
two-entry remapping, CM exactly when it equals "CM", the three roles are
mutually exclusive, and a surviving column outside all three rosters is
in no role list (silently excluded). -/
theorem C5_classification_pure (t : Table) (c : String) :
    (c ∈ data_cols t ↔
      (c ∈ t.cols ∧ c ≠ tcol ∧ c ∉ IGNORE_EXACT ∧
        ¬∃ p ∈ IGNORE_PREFIXES, p.data.isPrefixOf c.data = true)) ∧
    (c ∈ eeg_cols t ↔ (c ∈ data_cols t ∧ c ∈ EEG_CHANNELS)) ∧
    (c ∈ ecg_raw_cols t ↔ (c ∈ data_cols t ∧ (List.lookup c ECG_CHANNELS).isSome)) ∧
    (c ∈ cm_cols t ↔ (c ∈ data_cols t ∧ c = "CM")) ∧
    ¬(c ∈ EEG_CHANNELS ∧ (List.lookup c ECG_CHANNELS).isSome) ∧
    ¬(c ∈ EEG_CHANNELS ∧ c = "CM") ∧
    ¬((List.lookup c ECG_CHANNELS).isSome ∧ c = "CM") := by
  refine ⟨?_, ?_, ?_, ?_, ?_, ?_, ?_⟩
  · rw [data_cols_eq]
    simp [List.mem_filter, and_assoc]
  · rw [eeg_cols]
    simp [split_roles, List.mem_filter]
  · rw [ecg_raw_cols]
    simp [split_roles, List.mem_filter]
  · rw [cm_cols]
    simp [split_roles, List.mem_filter]
  · intro ⟨h1, h2⟩
    rcases (lookup_ecg_isSome c).mp h2 with h3 | h3 <;> subst h3 <;> revert h1 <;> decide
  · intro ⟨h1, h2⟩
    subst h2
    revert h1
    decide
  · intro ⟨h1, h2⟩
    subst h2
    rcases (lookup_ecg_isSome "CM").mp h1 with h3 | h3 <;> exact absurd h3 (by decide)

theorem length_allTraces_blocks (t : Table) :
    (allTraces t).length = (eegTraces t).length +
      ((cmTraces t).length + (mvTraces t).length + (uvTraces t).length) := by
  simp [allTraces]
  omega

theorem vis_eeg_only_blocks (t : Table) :
    (buildScene t).vis_eeg_only =
      List.replicate (eegTraces t).length true ++
      List.replicate
        ((cmTraces t).length + (mvTraces t).length + (uvTraces t).length) false := by
  have hlen := length_allTraces_blocks t
  refine List.ext_getElem? ?_
  intro j
  by_cases hj : j < (allTraces t).length
  · rw [vis_eeg_only_get t j hj, getElem?_replicate_append]
    by_cases h1 : j < (eegTraces t).length
    · rw [if_pos h1, decide_eq_true h1]
    · rw [if_neg h1, if_pos (by omega), decide_eq_false h1]
  · rw [List.getElem?_eq_none (le_trans (by
        rw [buildScene_vis_eeg_only, length_set_all, List.length_replicate])
        (Nat.le_of_not_lt hj)),
      List.getElem?_eq_none (by
        rw [List.length_append, List.length_replicate, List.length_replicate]
        omega)]

/-- C6: each Menu 1 preset vector has length equal to the total trace
count |EEG| + |CM| + 2 |ECG-raw|; "All" is all-true; "EEG only" is true
exactly at the EEG trace positions and has exactly |EEG| true entries;
"ECG+CM only" is true exactly at the CM and ECG-mV positions and false at
every ECG-μV position (the loop skips the ECG_uV group by a fixed rule,
whatever the current unit mode is). -/
theorem C6_preset_vectors (t : Table) (h : t.cols.Nodup) (i : ℕ)
    (hi : i < (allTraces t).length) :
    (buildScene t).visibility_all.length =
      (eeg_cols t).length + (cm_cols t).length + 2 * (ecg_raw_cols t).length ∧
    (buildScene t).vis_eeg_only.length =
      (eeg_cols t).length + (cm_cols t).length + 2 * (ecg_raw_cols t).length ∧
    (buildScene t).vis_other_only.length =
      (eeg_cols t).length + (cm_cols t).length + 2 * (ecg_raw_cols t).length ∧
    (buildScene t).visibility_all[i]? = some true ∧
    ((buildScene t).vis_eeg_only[i]? = some true ↔ i ∈ (buildScene t).idx_EEG) ∧
    (buildScene t).vis_eeg_only.count true = (eeg_cols t).length ∧
    ((buildScene t).vis_other_only[i]? = some true ↔
      (i ∈ (buildScene t).idx_CM ∨ i ∈ (buildScene t).idx_ECG_mV)) ∧
    (i ∈ (buildScene t).idx_ECG_uV →
      (buildScene t).vis_other_only[i]? = some false) := by
  have hlen := length_allTraces t h
  refine ⟨?_, ?_, ?_, vis_all_get t i hi, ?_, ?_, ?_, ?_⟩
  · rw [buildScene_visibility_all, List.length_replicate, hlen]
  · rw [buildScene_vis_eeg_only, length_set_all, List.length_replicate, hlen]
  · rw [buildScene_vis_other_only, length_set_all, length_set_all,
      List.length_replicate, hlen]
  · rw [vis_eeg_only_get t i hi, buildScene_idx_EEG]
    simp only [Option.some.injEq, decide_eq_true_eq, List.mem_range'_1]
    omega
  · rw [vis_eeg_only_blocks, List.count_append, List.count_replicate,
      List.count_replicate, length_eegTraces]
    simp
  · rw [vis_other_only_get t i hi, buildScene_idx_CM, buildScene_idx_mV]
    simp only [Option.some.injEq, decide_eq_true_eq, List.mem_range'_1]
    omega
  · intro hm
    rw [buildScene_idx_uV, List.mem_range'_1] at hm
    have h4 := length_allTraces_blocks t
    rw [vis_other_only_get t i hi, decide_eq_false (by omega)]

/-- C7: in the built scene every EEG, CM, and ECG-mV trace starts
effectively visible (their visible attribute is unset, which the
rendering library treats as visible) and every ECG-μV trace starts with
visible explicitly false, so mV is the default ECG unit mode. -/
theorem C7_initial_visibility (t : Table) (h : t.cols.Nodup) (i : ℕ)
    (hi : i < (allTraces t).length) :
    ((buildScene t).traces[i]?).map (fun tr => tr.visible)
      = some (if i ∈ (buildScene t).idx_ECG_uV then some false else none) ∧
    ((buildScene t).traces[i]?).map (fun tr => tr.visible.getD true)
      = some (decide (i ∉ (buildScene t).idx_ECG_uV)) := by
  have hlen := length_allTraces t h
  have hmem : i ∈ (buildScene t).idx_ECG_uV ↔
      (eeg_cols t).length + (cm_cols t).length + (ecg_raw_cols t).length ≤ i := by
    rw [buildScene_idx_uV]
    simp only [List.mem_range'_1]
    rw [length_eegTraces, length_cmTraces, length_mvTraces t h, length_uvTraces t h]
    omega
  constructor
  · rw [buildScene_traces, ← List.getElem?_map, stored_vis_eq t h,
      getElem?_replicate_append]
    by_cases h1 : (eeg_cols t).length + (cm_cols t).length + (ecg_raw_cols t).length ≤ i
    · rw [if_neg (by omega), if_pos (by omega), if_pos (hmem.mpr h1)]
    · rw [if_pos (by omega), if_neg (fun hm => h1 (hmem.mp hm))]
  · rw [buildScene_traces, ← List.getElem?_map, initial_vis_eq t h,
      getElem?_replicate_append]
    by_cases h1 : (eeg_cols t).length + (cm_cols t).length + (ecg_raw_cols t).length ≤ i
    · rw [if_neg (by omega), if_pos (by omega),
        decide_eq_false (fun hm => hm (hmem.mpr h1))]
    · rw [if_pos (by omega), decide_eq_true
        (show i ∉ (buildScene t).idx_ECG_uV from fun hm => h1 (hmem.mp hm))]

/-- C8: the secondary y axis is requested exactly when there is at least
one ECG-derived or CM trace, every EEG trace is drawn on the primary
axis, and every CM, ECG-mV, and ECG-μV trace on the secondary axis. -/
theorem C8_axis_assignment (t : Table) (h : t.cols.Nodup) (i : ℕ)
    (hi : i < (allTraces t).length) :
    ((buildScene t).use_secondary = true ↔
      0 < (buildScene t).idx_CM.length + (buildScene t).idx_ECG_mV.length
        + (buildScene t).idx_ECG_uV.length) ∧
    (i ∈ (buildScene t).idx_EEG →
      ((buildScene t).traces[i]?).map (fun tr => tr.secondary_y) = some false) ∧
    ((i ∈ (buildScene t).idx_CM ∨ i ∈ (buildScene t).idx_ECG_mV ∨
        i ∈ (buildScene t).idx_ECG_uV) →
      ((buildScene t).traces[i]?).map (fun tr => tr.secondary_y) = some true) := by
  have hlen := length_allTraces t h
  have huv : (ecg_uv t).length = (ecg_raw_cols t).length := by
    rw [(ecg_dicts_eq t h).1, List.length_map]
  refine ⟨?_, ?_, ?_⟩
  · rw [buildScene_use_secondary, buildScene_idx_CM, buildScene_idx_mV,
      buildScene_idx_uV]
    simp only [decide_eq_true_eq, List.length_range']
    rw [huv, length_cmTraces, length_mvTraces t h, length_uvTraces t h]
    omega
  · intro hm
    rw [buildScene_idx_EEG, List.mem_range'_1, length_eegTraces] at hm
    rw [buildScene_traces, ← List.getElem?_map, secondary_eq t h,
      getElem?_replicate_append, if_pos (by omega)]
  · intro hm
    have h1 : (eeg_cols t).length ≤ i := by
      rcases hm with hm | hm | hm
      · rw [buildScene_idx_CM, List.mem_range'_1, length_eegTraces] at hm
        omega
      · rw [buildScene_idx_mV, List.mem_range'_1, length_eegTraces] at hm
        omega
      · rw [buildScene_idx_uV, List.mem_range'_1, length_eegTraces] at hm
        omega
    rw [buildScene_traces, ← List.getElem?_map, secondary_eq t h,
      getElem?_replicate_append, if_neg (by omega), if_pos (by omega)]

/-- C9: EEG traces keep the raw column name and have no dash pattern set
(solid line); every CM trace carries the fixed label "CM (μV, reference)"
whatever the column was called, with the non-solid dash pattern "dot";
ECG traces carry the remapped name plus unit suffix with no dash pattern
(solid). -/
theorem C9_names_and_styles (t : Table) (h : t.cols.Nodup) :
    (buildScene t).traces.map (fun tr => (tr.name, tr.line_dash)) =
      (eeg_cols t).map (fun c => (c, (none : Option String)))
      ++ (cm_cols t).map (fun _ => ("CM (μV, reference)", some "dot"))
      ++ (ecg_raw_cols t).map (fun r => (nice r ++ " (mV)", (none : Option String)))
      ++ (ecg_raw_cols t).map (fun r => (nice r ++ " (μV)", (none : Option String))) := by
  rw [buildScene_traces, allTraces, mvTraces_eq t h, uvTraces_eq t h]
  simp only [List.map_append, List.map_map, eegTraces, cmTraces]
  rfl

theorem length_vis_unit_mV (t : Table) :
    (buildScene t).vis_unit_mV.length = (allTraces t).length := by
  have e1 : (buildScene t).vis_unit_mV =
      set_all (set_all ((allTraces t).map (fun tr => tr.visible.getD true))
        (buildScene t).idx_ECG_mV true) (buildScene t).idx_ECG_uV false := rfl
  rw [e1, length_set_all, length_set_all, List.length_map]

theorem length_vis_unit_uV (t : Table) :
    (buildScene t).vis_unit_uV.length = (allTraces t).length := by
  have e1 : (buildScene t).vis_unit_uV =
      set_all (set_all ((allTraces t).map (fun tr => tr.visible.getD true))
        (buildScene t).idx_ECG_mV false) (buildScene t).idx_ECG_uV true := rfl
  rw [e1, length_set_all, length_set_all, List.length_map]

/-- C10: the trace list is four contiguous blocks in the order EEG, CM,
ECG-mV, ECG-μV; within each block the traces follow the input table
column order (each role list is a filter of the input column list); the
four index groups are the corresponding ranges of positions; and every
preset and unit-toggle vector has one entry per trace position. -/
theorem C10_trace_order (t : Table) (h : t.cols.Nodup) :
    (buildScene t).traces = eegTraces t ++ cmTraces t ++ mvTraces t ++ uvTraces t ∧
    eeg_cols t = t.cols.filter (fun c => EEG_CHANNELS.contains c
      && ((c != tcol) && !(IGNORE_EXACT.contains c)
        && !(IGNORE_PREFIXES.any (fun p => p.data.isPrefixOf c.data)))) ∧
    ecg_raw_cols t = t.cols.filter (fun c => (List.lookup c ECG_CHANNELS).isSome
      && ((c != tcol) && !(IGNORE_EXACT.contains c)
        && !(IGNORE_PREFIXES.any (fun p => p.data.isPrefixOf c.data)))) ∧
    cm_cols t = t.cols.filter (fun c => (c == "CM")
      && ((c != tcol) && !(IGNORE_EXACT.contains c)
        && !(IGNORE_PREFIXES.any (fun p => p.data.isPrefixOf c.data)))) ∧
    mvTraces t = (ecg_raw_cols t).map (fun raw =>
      Trace.mk (nice raw ++ " (mV)") (timeSeries (processRows t.rows))
        (colSeries (processRows t.rows) raw) none true none) ∧
    uvTraces t = (ecg_raw_cols t).map (fun raw =>
      Trace.mk (nice raw ++ " (μV)") (timeSeries (processRows t.rows))
        ((colSeries (processRows t.rows) raw).map (fun v => v * 1000))
        (some false) true none) ∧
    (buildScene t).idx_EEG = List.range' 0 (eegTraces t).length ∧
    (buildScene t).idx_CM = List.range' (eegTraces t).length (cmTraces t).length ∧
    (buildScene t).idx_ECG_mV =
      List.range' ((eegTraces t).length + (cmTraces t).length) (mvTraces t).length ∧
    (buildScene t).idx_ECG_uV =
      List.range' ((eegTraces t).length + (cmTraces t).length + (mvTraces t).length)
        (uvTraces t).length ∧
    (buildScene t).visibility_all.length = (buildScene t).traces.length ∧
    (buildScene t).vis_eeg_only.length = (buildScene t).traces.length ∧
    (buildScene t).vis_other_only.length = (buildScene t).traces.length ∧
    (buildScene t).vis_unit_mV.length = (buildScene t).traces.length ∧
    (buildScene t).vis_unit_uV.length = (buildScene t).traces.length := by
  refine ⟨rfl, ?_, ?_, ?_, mvTraces_eq t h, uvTraces_eq t h,
    rfl, rfl, rfl, rfl, ?_, ?_, ?_, ?_, ?_⟩
  · rw [eeg_cols]
    show (data_cols t).filter _ = _
    rw [data_cols_eq, List.filter_filter]
  · rw [ecg_raw_cols]
    show (data_cols t).filter _ = _
    rw [data_cols_eq, List.filter_filter]
  · rw [cm_cols]
    show (data_cols t).filter _ = _
    rw [data_cols_eq, List.filter_filter]
  · rw [buildScene_visibility_all, List.length_replicate, buildScene_traces]
  · rw [buildScene_vis_eeg_only, length_set_all, List.length_replicate,
      buildScene_traces]
  · rw [buildScene_vis_other_only, length_set_all, length_set_all,
      List.length_replicate, buildScene_traces]
  · rw [length_vis_unit_mV, buildScene_traces]
  · rw [length_vis_unit_uV, buildScene_traces]

/-- C2 counterexample: at the table Tex the built scene has its single
EEG trace at position 0 and its precomputed "ECG in mV" vector carries
true at position 0. In a viewer state whose visibility vector is
[false, true, true, false] (the user has hidden the EEG trace), selecting
"ECG in mV" applies the stored vector wholesale, so the EEG entry becomes
true: the EEG visibility at the moment of selection is not read back and
carried forward, contradicting the claim. -/
theorem C2_counterexample :
    0 ∈ (buildScene Tex).idx_EEG ∧
    [false, true, true, false][0]? = some false ∧
    (apply_visibility_button [false, true, true, false]
        (buildScene Tex).vis_unit_mV)[0]? = some true := by
  refine ⟨by decide, rfl, by decide⟩

/-- C2 (amended): selecting a Menu 2 unit option replaces the visibility
vector with one precomputed at build time: it flips only ECG-mV and
ECG-μV entries relative to the build-time initial visibilities, and it
sets every EEG and CM entry to its build-time initial value (visible),
regardless of the visibility state at the moment of selection. -/
theorem C2_unit_toggle_amended (t : Table) (h : t.cols.Nodup) (cur : List Bool)
    (i : ℕ) (hmem : i ∈ (buildScene t).idx_EEG ∨ i ∈ (buildScene t).idx_CM) :
    (apply_visibility_button cur (buildScene t).vis_unit_mV)[i]? = some true ∧
    (apply_visibility_button cur (buildScene t).vis_unit_uV)[i]? = some true := by
  have hi : i < (eegTraces t).length + (cmTraces t).length := by
    rcases hmem with hm | hm
    · rw [buildScene_idx_EEG, List.mem_range'_1] at hm
      omega
    · rw [buildScene_idx_CM, List.mem_range'_1] at hm
      omega
  exact vis_unit_get_nonECG t h i hi

theorem filter_map_name_nil (f : String → Trace) (key2 : String) (l : List String)
    (hne : ∀ c ∈ l, (f c).name ≠ key2) :
    (l.map f).filter (fun tr => tr.name == key2) = [] := by
  rw [List.filter_eq_nil_iff]
  intro tr htr
  rcases List.mem_map.mp htr with ⟨c2, hc2, rfl⟩
  simp only [beq_iff_eq]
  exact hne c2 hc2

/-- C1: for a surviving ECG-raw column the scene holds exactly one trace
whose name is the remapped name with the mV suffix, carrying the raw
column values unscaled, and exactly one trace whose name is the remapped
name with the μV suffix, carrying the raw column values multiplied by
1000 pointwise; both share the processed time axis as x data, so at every
row index the μV value is 1000 times the mV value. -/
theorem C1_derived_ecg_traces (t : Table) (h : t.cols.Nodup) (raw : String)
    (hraw : raw ∈ ecg_raw_cols t) (i : ℕ) :
    ((buildScene t).traces.filter (fun tr => tr.name == nice raw ++ " (mV)")
      = [Trace.mk (nice raw ++ " (mV)") (timeSeries (processRows t.rows))
          (colSeries (processRows t.rows) raw) none true none]) ∧
    ((buildScene t).traces.filter (fun tr => tr.name == nice raw ++ " (μV)")
      = [Trace.mk (nice raw ++ " (μV)") (timeSeries (processRows t.rows))
          ((colSeries (processRows t.rows) raw).map (fun v => v * 1000))
          (some false) true none]) ∧
    (((colSeries (processRows t.rows) raw).map (fun v => v * 1000))[i]?
      = ((colSeries (processRows t.rows) raw)[i]?).map (fun v => v * 1000)) := by
  have hlook := ecg_raw_cols_lookup t raw hraw
  have hcase := (lookup_ecg_isSome raw).mp hlook
  have hnd := ecg_raw_cols_nodup t h
  have heegmem : ∀ c2 ∈ eeg_cols t, c2 ∈ EEG_CHANNELS := by
    intro c2 hc2
    have h4 := List.mem_filter.mp hc2
    simpa using h4.2
  refine ⟨?_, ?_, List.getElem?_map _ _ _⟩
  · rw [buildScene_traces, allTraces, mvTraces_eq t h, uvTraces_eq t h,
      eegTraces, cmTraces, List.filter_append, List.filter_append,
      List.filter_append]
    rw [filter_map_name_nil _ _ _ (fun c2 hc2 => show c2 ≠ nice raw ++ " (mV)" by
      intro hkey
      have hc3 := heegmem c2 hc2
      rw [hkey] at hc3
      rcases hcase with hr | hr <;> subst hr <;> revert hc3 <;> decide)]
    rw [filter_map_name_nil _ _ (cm_cols t) (fun c2 _ =>
      show "CM (μV, reference)" ≠ nice raw ++ " (mV)" by
        rcases hcase with hr | hr <;> subst hr <;> decide)]
    rw [filter_map_key_singleton
      (fun r => Trace.mk (nice r ++ " (mV)") (timeSeries (processRows t.rows))
        (colSeries (processRows t.rows) r) none true none)
      (fun r => nice r ++ " (mV)") (fun _ => rfl) (ecg_raw_cols t) hnd raw hraw
      (fun a ha hk => nice_mv_inj a raw (ecg_raw_cols_lookup t a ha) hlook hk)]
    rw [filter_map_name_nil _ _ (ecg_raw_cols t) (fun b hb =>
      show nice b ++ " (μV)" ≠ nice raw ++ " (mV)" by
        rcases (lookup_ecg_isSome b).mp (ecg_raw_cols_lookup t b hb) with h1 | h1 <;>
          rcases hcase with h2 | h2 <;> subst h1 <;> subst h2 <;> decide)]
    simp
  · rw [buildScene_traces, allTraces, mvTraces_eq t h, uvTraces_eq t h,
      eegTraces, cmTraces, List.filter_append, List.filter_append,
      List.filter_append]
    rw [filter_map_name_nil _ _ _ (fun c2 hc2 => show c2 ≠ nice raw ++ " (μV)" by
      intro hkey
      have hc3 := heegmem c2 hc2
      rw [hkey] at hc3
      rcases hcase with hr | hr <;> subst hr <;> revert hc3 <;> decide)]
    rw [filter_map_name_nil _ _ (cm_cols t) (fun c2 _ =>
      show "CM (μV, reference)" ≠ nice raw ++ " (μV)" by
        rcases hcase with hr | hr <;> subst hr <;> decide)]
    rw [filter_map_name_nil _ _ (ecg_raw_cols t) (fun b hb =>
      show nice b ++ " (mV)" ≠ nice raw ++ " (μV)" by
        rcases (lookup_ecg_isSome b).mp (ecg_raw_cols_lookup t b hb) with h1 | h1 <;>
          rcases hcase with h2 | h2 <;> subst h1 <;> subst h2 <;> decide)]
    rw [filter_map_key_singleton
      (fun r => Trace.mk (nice r ++ " (μV)") (timeSeries (processRows t.rows))
        ((colSeries (processRows t.rows) r).map (fun v => v * 1000))
        (some false) true none)
      (fun r => nice r ++ " (μV)") (fun _ => rfl) (ecg_raw_cols t) hnd raw hraw
      (fun a ha hk => nice_uv_inj a raw (ecg_raw_cols_lookup t a ha) hlook hk)]
    simp

/- Witnesses: each applies its claim theorem at the concrete table Tex,
discharging every hypothesis there. -/

theorem C1_witness :
    Tex.cols.Nodup ∧ "X1:LEOG" ∈ ecg_raw_cols Tex ∧
    (((buildScene Tex).traces.filter (fun tr => tr.name == nice "X1:LEOG" ++ " (mV)")
      = [Trace.mk (nice "X1:LEOG" ++ " (mV)") (timeSeries (processRows Tex.rows))
          (colSeries (processRows Tex.rows) "X1:LEOG") none true none]) ∧
    ((buildScene Tex).traces.filter (fun tr => tr.name == nice "X1:LEOG" ++ " (μV)")
      = [Trace.mk (nice "X1:LEOG" ++ " (μV)") (timeSeries (processRows Tex.rows))
          ((colSeries (processRows Tex.rows) "X1:LEOG").map (fun v => v * 1000))
          (some false) true none]) ∧
    (((colSeries (processRows Tex.rows) "X1:LEOG").map (fun v => v * 1000))[0]?
      = ((colSeries (processRows Tex.rows) "X1:LEOG")[0]?).map (fun v => v * 1000))) :=
  ⟨by decide, by decide,
    C1_derived_ecg_traces Tex (by decide) "X1:LEOG" (by decide) 0⟩

theorem C2_amended_witness :
    Tex.cols.Nodup ∧
    (0 ∈ (buildScene Tex).idx_EEG ∨ 0 ∈ (buildScene Tex).idx_CM) ∧
    ((apply_visibility_button [] (buildScene Tex).vis_unit_mV)[0]? = some true ∧
     (apply_visibility_button [] (buildScene Tex).vis_unit_uV)[0]? = some true) :=
  ⟨by decide, by decide, C2_unit_toggle_amended Tex (by decide) [] 0 (by decide)⟩

theorem C4_witness :
    Tex.cols.Nodup ∧ 0 < (allTraces Tex).length ∧
    (((buildScene Tex).traces[0]?).map (fun tr => tr.x)
        = some (timeSeries (processRows Tex.rows)) ∧
      (timeSeries (processRows Tex.rows)).Perm
        ((Tex.rows.filter (fun r => r.time.isSome)).map (fun r => r.time.getD 0)) ∧
      List.Sorted (· ≤ ·) (timeSeries (processRows Tex.rows)) ∧
      ((buildScene Tex).traces[0]?).map (fun tr => tr.y.length)
        = some (processRows Tex.rows).length) :=
  ⟨by decide, by decide, C4_time_processing Tex (by decide) 0 (by decide)⟩

theorem C6_witness :
    Tex.cols.Nodup ∧ 0 < (allTraces Tex).length ∧
    ((buildScene Tex).visibility_all.length =
        (eeg_cols Tex).length + (cm_cols Tex).length + 2 * (ecg_raw_cols Tex).length ∧
      (buildScene Tex).vis_eeg_only.length =
        (eeg_cols Tex).length + (cm_cols Tex).length + 2 * (ecg_raw_cols Tex).length ∧
      (buildScene Tex).vis_other_only.length =
        (eeg_cols Tex).length + (cm_cols Tex).length + 2 * (ecg_raw_cols Tex).length ∧
      (buildScene Tex).visibility_all[0]? = some true ∧
      ((buildScene Tex).vis_eeg_only[0]? = some true ↔ 0 ∈ (buildScene Tex).idx_EEG) ∧
      (buildScene Tex).vis_eeg_only.count true = (eeg_cols Tex).length ∧
      ((buildScene Tex).vis_other_only[0]? = some true ↔
        (0 ∈ (buildScene Tex).idx_CM ∨ 0 ∈ (buildScene Tex).idx_ECG_mV)) ∧
      (0 ∈ (buildScene Tex).idx_ECG_uV →
        (buildScene Tex).vis_other_only[0]? = some false)) :=
  ⟨by decide, by decide, C6_preset_vectors Tex (by decide) 0 (by decide)⟩

theorem C7_witness :
    Tex.cols.Nodup ∧ 3 < (allTraces Tex).length ∧
    (((buildScene Tex).traces[3]?).map (fun tr => tr.visible)
        = some (if 3 ∈ (buildScene Tex).idx_ECG_uV then some false else none) ∧
      ((buildScene Tex).traces[3]?).map (fun tr => tr.visible.getD true)
        = some (decide (3 ∉ (buildScene Tex).idx_ECG_uV))) :=
  ⟨by decide, by decide, C7_initial_visibility Tex (by decide) 3 (by decide)⟩

theorem C8_witness :
    Tex.cols.Nodup ∧ 1 < (allTraces Tex).length ∧
    (((buildScene Tex).use_secondary = true ↔
        0 < (buildScene Tex).idx_CM.length + (buildScene Tex).idx_ECG_mV.length
          + (buildScene Tex).idx_ECG_uV.length) ∧
      (1 ∈ (buildScene Tex).idx_EEG →
        ((buildScene Tex).traces[1]?).map (fun tr => tr.secondary_y) = some false) ∧
      ((1 ∈ (buildScene Tex).idx_CM ∨ 1 ∈ (buildScene Tex).idx_ECG_mV ∨
          1 ∈ (buildScene Tex).idx_ECG_uV) →
        ((buildScene Tex).traces[1]?).map (fun tr => tr.secondary_y) = some true)) :=
  ⟨by decide, by decide, C8_axis_assignment Tex (by decide) 1 (by decide)⟩

theorem C9_witness :
    Tex.cols.Nodup ∧
    ((buildScene Tex).traces.map (fun tr => (tr.name, tr.line_dash)) =
      (eeg_cols Tex).map (fun c => (c, (none : Option String)))
      ++ (cm_cols Tex).map (fun _ => ("CM (μV, reference)", some "dot"))
      ++ (ecg_raw_cols Tex).map (fun r => (nice r ++ " (mV)", (none : Option String)))
      ++ (ecg_raw_cols Tex).map (fun r => (nice r ++ " (μV)", (none : Option String)))) :=
  ⟨by decide, C9_names_and_styles Tex (by decide)⟩

theorem C10_witness :
    Tex.cols.Nodup ∧
    ((buildScene Tex).traces =
        eegTraces Tex ++ cmTraces Tex ++ mvTraces Tex ++ uvTraces Tex ∧
      eeg_cols Tex = Tex.cols.filter (fun c => EEG_CHANNELS.contains c
        && ((c != tcol) && !(IGNORE_EXACT.contains c)
          && !(IGNORE_PREFIXES.any (fun p => p.data.isPrefixOf c.data)))) ∧
      ecg_raw_cols Tex = Tex.cols.filter (fun c => (List.lookup c ECG_CHANNELS).isSome
        && ((c != tcol) && !(IGNORE_EXACT.contains c)
          && !(IGNORE_PREFIXES.any (fun p => p.data.isPrefixOf c.data)))) ∧
      cm_cols Tex = Tex.cols.filter (fun c => (c == "CM")
        && ((c != tcol) && !(IGNORE_EXACT.contains c)
          && !(IGNORE_PREFIXES.any (fun p => p.data.isPrefixOf c.data)))) ∧
      mvTraces Tex = (ecg_raw_cols Tex).map (fun raw =>
        Trace.mk (nice raw ++ " (mV)") (timeSeries (processRows Tex.rows))
          (colSeries (processRows Tex.rows) raw) none true none) ∧
      uvTraces Tex = (ecg_raw_cols Tex).map (fun raw =>
        Trace.mk (nice raw ++ " (μV)") (timeSeries (processRows Tex.rows))
          ((colSeries (processRows Tex.rows) raw).map (fun v => v * 1000))
          (some false) true none) ∧
      (buildScene Tex).idx_EEG = List.range' 0 (eegTraces Tex).length ∧
      (buildScene Tex).idx_CM =
        List.range' (eegTraces Tex).length (cmTraces Tex).length ∧
      (buildScene Tex).idx_ECG_mV =
        List.range' ((eegTraces Tex).length + (cmTraces Tex).length)
          (mvTraces Tex).length ∧
      (buildScene Tex).idx_ECG_uV =
        List.range'
          ((eegTraces Tex).length + (cmTraces Tex).length + (mvTraces Tex).length)
          (uvTraces Tex).length ∧
      (buildScene Tex).visibility_all.length = (buildScene Tex).traces.length ∧
      (buildScene Tex).vis_eeg_only.length = (buildScene Tex).traces.length ∧
      (buildScene Tex).vis_other_only.length = (buildScene Tex).traces.length ∧
      (buildScene Tex).vis_unit_mV.length = (buildScene Tex).traces.length ∧
      (buildScene Tex).vis_unit_uV.length = (buildScene Tex).traces.length) :=
  ⟨by decide, C10_trace_order Tex (by decide)⟩

end PlotEegEcg
